import Mathlib

/-!
Verification of the content-scraper core: the authenticity scoring engine
(`validators/authenticity_validator.py`), the sliding-window rate limiter
(`utils/rate_limiter.py`) and the fetch gateway (`scrapers/base_scraper.py`),
shallowly embedded in Lean 4.  Python dictionaries are modelled as ordered
association lists, Python values by an inductive `MetaVal`, machine time by
`Nat` instants, and fallible Python code by `Except Unit`.
-/

namespace ContentScraper

/-! ### Python value model

Metadata dictionaries in the repository hold strings, integers, booleans and
nested dictionaries.  `MetaVal` covers exactly those; a `Dict` is an ordered
association list (Python dicts preserve insertion order). -/

inductive MetaVal : Type where
  | nat  (n : Nat)
  | str  (s : String)
  | bool (b : Bool)
  | dict (entries : List (String × MetaVal))

abbrev Dict := List (String × MetaVal)

/-- `d.get(k)` / `d.get(k, default=None)`: first binding of key `k`. -/
def dget : Dict → String → Option MetaVal
  | [], _ => none
  | p :: rest, k => if p.1 == k then some p.2 else dget rest k

/-- Whether key `k` occurs in `d` (`k in d`). -/
def hasKey : Dict → String → Bool
  | [], _ => false
  | p :: rest, k => p.1 == k || hasKey rest k

/-- `d[k] = v`: overwrite in place if the key exists, else append (Python
dicts keep the original position of an updated key). -/
def dset : Dict → String → MetaVal → Dict
  | [], k, v => [(k, v)]
  | p :: rest, k, v =>
    if p.1 == k then (k, v) :: rest else p :: dset rest k v

/-- `len(d)`: number of entries (keys are distinct in any dict built by
`dset` from distinct-key input). -/
def dlen (d : Dict) : Nat := d.length

/-- Python truthiness of a `MetaVal` (`0`, `""`, `False`, `{}` are falsy). -/
def pyTruthy : MetaVal → Bool
  | .nat n => n != 0
  | .str s => s != ""
  | .bool b => b
  | .dict d => !d.isEmpty

/-- Python `v > m` for an int bound `m`: defined for ints and bools
(bools are ints in Python), a `TypeError` for strings and dicts. -/
def pyGt : MetaVal → Nat → Except Unit Bool
  | .nat n, m => .ok (decide (m < n))
  | .bool b, m => .ok (decide (m < (if b then 1 else 0)))
  | _, _ => .error ()

/-- Python `configuredName == metadataValue` where the configured side is a
string or absent (`None`): `None == x` is `False` for every modelled value,
and a string equals only an equal string. -/
def pyEq (cfg : Option String) (v : MetaVal) : Bool :=
  match cfg, v with
  | some s, .str t => s == t
  | _, _ => false

/-! ### Configuration constants (`config/settings.py`, env-var defaults) -/

def MIN_AUTHENTICITY_SCORE : Nat := 75
def MAX_RETRIES : Nat := 3
def RATE_LIMIT_CALLS : Nat := 10
def RATE_LIMIT_PERIOD : Nat := 60
def REQUEST_TIMEOUT : Nat := 30

/-! ### URL host extraction (`urllib.parse.urlparse(url).netloc`)

`urlparse` yields a non-empty `netloc` only when the input (after stripping a
valid `scheme:`) begins with `//`; the authority then runs until the first of
`/`, `?`, `#`.  We work on character lists so every proof can evaluate. -/

def isSchemeChar (c : Char) : Bool :=
  c.isAlphanum || c == '+' || c == '-' || c == '.'

/-- Is `pre` of the form `scheme ++ ":"` for a valid URL scheme
(first char alphabetic, the rest scheme characters)?  The empty `pre`
(URL starting with `//`) is also accepted. -/
def schemeColonOK (pre : List Char) : Bool :=
  match pre with
  | [] => true
  | c :: rest =>
    match rest.reverse with
    | ':' :: _ => c.isAlpha && (c :: rest).dropLast.all isSchemeChar
    | _ => false

/-- Split at the first occurrence of `//`, returning the text before and
after it, or `none` when `//` does not occur. -/
def splitDoubleSlash : List Char → Option (List Char × List Char)
  | [] => none
  | '/' :: '/' :: rest => some ([], rest)
  | c :: rest => (splitDoubleSlash rest).map (fun p => (c :: p.1, p.2))

/-- `urlparse(url).netloc` for the URLs this repository handles. -/
def netloc (url : String) : String :=
  match splitDoubleSlash url.data with
  | none => ""
  | some (pre, rest) =>
    if schemeColonOK pre then
      ⟨rest.takeWhile (fun c => !(c == '/' || c == '?' || c == '#'))⟩
    else ""

/-- Python `s.replace("www.", "")`: delete every (left-to-right,
non-overlapping) occurrence of `www.`. -/
def stripWwwAll : List Char → List Char
  | 'w' :: 'w' :: 'w' :: '.' :: rest => stripWwwAll rest
  | c :: rest => c :: stripWwwAll rest
  | [] => []

/-- `urlparse(url).netloc.replace('www.', '')`. -/
def urlDomain (url : String) : String := ⟨stripWwwAll (netloc url).data⟩

/-- Python `s.endswith(suffix)`. -/
def strEndsWith (s suffix : String) : Bool :=
  suffix.data.isSuffixOf s.data

/-! ### Author trust profiles (`config/authors.json` entries)

Each `.get` with a `None` default is an `Option`; list-valued keys default to
`[]` exactly as in the Python `config.get(..., [])` calls. -/

structure BlogCfg where
  name : Option String := none
  url : Option String := none

structure ChannelCfg where
  name : Option String := none

structure PodcastCfg where
  name : Option String := none

structure BookCfg where
  title : Option String := none

structure AuthorConfig where
  name : Option String := none
  official_domains : List String := []
  blogs : List BlogCfg := []
  youtube_channels : List ChannelCfg := []
  podcasts : List PodcastCfg := []
  books : List BookCfg := []

/-- Assoc-list lookup with default, Python `mapping.get(key, default)`. -/
def lookupD {α : Type} (l : List (String × α)) (k : String) (d : α) : α :=
  match l.find? (fun p => p.1 == k) with
  | some p => p.2
  | none => d

/-! ### Content records

A record is a Python dict; the validator reads `author`, `platform`, `url`,
`metadata` and writes `authenticity_score`.  `get` defaults from the source:
`author` has default `None`, `platform`/`url` default `''`, `metadata`
defaults `{}`.  `authenticity_score = none` models an absent key. -/

structure ContentRecord where
  author : Option String := none
  platform : String := ""
  url : String := ""
  metadata : Dict := []
  authenticity_score : Option Nat := none

/-- Python `if not author_id:` for a value that is `None` or a string. -/
def pyFalsyOptStr : Option String → Bool
  | none => true
  | some s => s == ""

/-! ### `AuthenticityValidator` (`validators/authenticity_validator.py`) -/

structure AuthenticityValidator where
  authors_config : List (String × AuthorConfig)
  official_domains : List (String × List String)

/-- `_build_domain_whitelist`: per author, the configured
`official_domains` extended with the domain of each configured blog URL
(skipping empty/duplicate domains). -/
def build_domain_whitelist (cfg : List (String × AuthorConfig)) :
    List (String × List String) :=
  cfg.map (fun p =>
    (p.1, p.2.blogs.foldl (fun ds b =>
      let url := b.url.getD ""
      if url == "" then ds
      else
        let d := urlDomain url
        if d != "" && !(ds.contains d) then ds ++ [d] else ds)
      p.2.official_domains))

/-- `__init__`: load the config and build the whitelist. -/
def AuthenticityValidator.init (cfg : List (String × AuthorConfig)) :
    AuthenticityValidator :=
  { authors_config := cfg, official_domains := build_domain_whitelist cfg }

/-- `_verify_domain`: 0 for a missing URL, 20 when the author has no
configured domains, 40 on exact host match, 35 on subdomain match, else 0. -/
def verify_domain (v : AuthenticityValidator) (author_id url : String) : Nat :=
  if url == "" then 0
  else
    let official := lookupD v.official_domains author_id []
    if official.isEmpty then 20
    else
      let domain := urlDomain url
      if official.contains domain then 40
      else if official.any (fun d => strEndsWith domain ("." ++ d) || domain == d)
      then 35
      else 0

/-- `_verify_twitter`: the scraper is trusted to fetch the right account. -/
def verify_twitter (_cfg : AuthorConfig) (_metadata : Dict) : Nat := 40

/-- `_verify_youtube`: 40 on a configured channel-name match, 30 when no
channels are configured, else 15. -/
def verify_youtube (cfg : AuthorConfig) (metadata : Dict) : Nat :=
  let channel_name := (dget metadata "channel_name").getD (.str "")
  if cfg.youtube_channels.any (fun ch => pyEq ch.name channel_name) then 40
  else if cfg.youtube_channels.isEmpty then 30
  else 15

/-- `_verify_blog`: 40 when some configured blog matches by name or by
domain-of-configured-URL against `metadata.domain`, else 15. -/
def verify_blog (cfg : AuthorConfig) (metadata : Dict) : Nat :=
  let blog_name := (dget metadata "blog_name").getD (.str "")
  let domain := (dget metadata "domain").getD (.str "")
  if cfg.blogs.any (fun b =>
      pyEq b.name blog_name ||
      pyEq (some (urlDomain (b.url.getD ""))) domain) then 40
  else 15

/-- `_verify_podcast`: 40 on a configured podcast-name match, else 25. -/
def verify_podcast (cfg : AuthorConfig) (metadata : Dict) : Nat :=
  let podcast_name := (dget metadata "podcast_name").getD (.str "")
  if cfg.podcasts.any (fun p => pyEq p.name podcast_name) then 40 else 25

/-- `_verify_book`: 40 on a configured book-title match, else 10. -/
def verify_book (cfg : AuthorConfig) (metadata : Dict) : Nat :=
  let book_title := (dget metadata "book_title").getD (.str "")
  if cfg.books.any (fun b => pyEq b.title book_title) then 40 else 10

/-- `_verify_platform`: dispatch on the platform string; empty platform
scores 0, unknown platforms score 20. -/
def verify_platform (v : AuthenticityValidator) (author_id platform : String)
    (metadata : Dict) : Nat :=
  if platform == "" then 0
  else
    let cfg := lookupD v.authors_config author_id {}
    if platform == "twitter" then verify_twitter cfg metadata
    else if platform == "youtube" then verify_youtube cfg metadata
    else if platform == "blog" then verify_blog cfg metadata
    else if platform == "podcast" then verify_podcast cfg metadata
    else if platform == "book" then verify_book cfg metadata
    else 20

/-- `_verify_metadata`: four +5 checks, capped at 20.  The comparison
`word_count > 50` is a Python `TypeError` when the value is not a number,
so the result is fallible. -/
def verify_metadata (metadata : Dict) : Except Unit Nat := do
  let wcGt ← pyGt ((dget metadata "word_count").getD (.nat 0)) 50
  let s1 := if wcGt then 5 else 0
  let s2 := if (dget metadata "metrics").elim false pyTruthy then 5 else 0
  let s3 := if (dget metadata "word_count").elim false pyTruthy then 5 else 0
  let s4 := if 2 < dlen metadata then 5 else 0
  return min 20 (s1 + s2 + s3 + s4)

/-- `_calculate_authenticity_score`: clamped sum of the three sub-scores. -/
def calculate_authenticity_score (v : AuthenticityValidator)
    (author_id platform url : String) (metadata : Dict) : Except Unit Nat := do
  let d := verify_domain v author_id url
  let p := verify_platform v author_id platform metadata
  let m ← verify_metadata metadata
  return min 100 (d + p + m)

/-- `validate`: missing/empty author scores 0 immediately; otherwise the
score is computed and written into the record together with
`metadata.validation = {authenticity_score, passed}`.  Writing into a
non-dict pre-existing `validation` value is a Python `TypeError`. -/
def validate (v : AuthenticityValidator) (content : ContentRecord) :
    Except Unit ContentRecord :=
  if pyFalsyOptStr content.author then
    .ok { content with authenticity_score := some 0 }
  else
    match calculate_authenticity_score v (content.author.getD "")
        content.platform content.url content.metadata with
    | .error e => .error e
    | .ok score =>
      let md1 := if hasKey content.metadata "validation" then content.metadata
                 else dset content.metadata "validation" (.dict [])
      match dget md1 "validation" with
      | some (.dict d) =>
        .ok { content with
                authenticity_score := some score,
                metadata := dset md1 "validation"
                  (.dict (dset (dset d "authenticity_score" (.nat score))
                    "passed"
                    (.bool (decide (MIN_AUTHENTICITY_SCORE ≤ score))))) }
      | _ => .error ()

/-- `validate_batch`: validate each record, catching per-record failures
and keeping the failed record with score 0. -/
def validate_batch (v : AuthenticityValidator) :
    List ContentRecord → List ContentRecord
  | [] => []
  | c :: rest =>
    match validate v c with
    | .ok r => r :: validate_batch v rest
    | .error _ => { c with authenticity_score := some 0 } :: validate_batch v rest

/-- The effective threshold of `filter_by_score`:
`min_score or MIN_AUTHENTICITY_SCORE` (both `None` and `0` are falsy). -/
def effectiveMinScore : Option Nat → Nat
  | none => MIN_AUTHENTICITY_SCORE
  | some k => if k = 0 then MIN_AUTHENTICITY_SCORE else k

/-- `filter_by_score`: keep records whose score (defaulting to 0 when the
key is absent) reaches the effective threshold. -/
def filter_by_score (contents : List ContentRecord) (min_score : Option Nat) :
    List ContentRecord :=
  contents.filter
    (fun c => effectiveMinScore min_score ≤ c.authenticity_score.getD 0)

/-! ### Rate limiter (`utils/rate_limiter.py`)

Time is a `Nat` instant.  `wait_if_needed` takes the instant `now` at which
the call enters the lock and an oversleep `δ ≥ 0` (in seconds) by which the
actual wake-up may exceed the requested sleep; the Python `while … popleft`
eviction loop over the chronologically sorted deque is `List.dropWhile`. -/

structure RateLimiter where
  calls : Nat
  period : Nat
  timestamps : List Nat

/-- One `wait_if_needed` call.  Returns the instant at which the call
recorded its timestamp and returned, together with the new limiter state.
(The `[]` branch of the full-window case is unreachable for `0 < calls`;
Python would raise `IndexError` there.) -/
def RateLimiter.wait_if_needed (rl : RateLimiter) (now δ : Nat) :
    Nat × RateLimiter :=
  let ts := rl.timestamps.dropWhile (fun t => t + rl.period ≤ now)
  if rl.calls ≤ ts.length then
    match ts with
    | [] => (now, { rl with timestamps := [now] })
    | t0 :: _ =>
      let sleep := t0 + rl.period - now
      if 0 < sleep then
        let wake := now + sleep + δ
        let ts2 := ts.dropWhile (fun t => t + rl.period ≤ wake)
        (wake, { rl with timestamps := ts2 ++ [wake] })
      else (now, { rl with timestamps := ts ++ [now] })
  else (now, { rl with timestamps := ts ++ [now] })

/-- Run a sequence of `wait_if_needed` calls against one limiter.  Each
trace element `(g, δ)` says the call entered the lock `g` seconds after the
previous call returned and overslept by `δ`.  Returns the final clock, the
final limiter and the list of recorded acquisition instants in order. -/
def runAcquires (rl : RateLimiter) (clock : Nat) :
    List (Nat × Nat) → Nat × RateLimiter × List Nat
  | [] => (clock, rl, [])
  | (g, δ) :: rest =>
    let r := rl.wait_if_needed (clock + g) δ
    let rec' := runAcquires r.2 r.1 rest
    (rec'.1, rec'.2.1, r.1 :: rec'.2.2)

/-- Number of acquisition instants of `l` inside the trailing window
`(t - period, t]`. -/
def windowCount (period t : Nat) (l : List Nat) : Nat :=
  l.countP (fun a => decide (a ≤ t ∧ t < a + period))

/-! ### Fetch gateway (`scrapers/base_scraper.py`)

The network is a function `net : Nat → NetResult` giving the result of the
`k`-th physical HTTP exchange.  `fetch_url` is wrapped twice:

* the `requests` session carries a `urllib3 Retry(total=MAX_RETRIES,
  status_forcelist=[429,500,502,503,504])`, which re-issues the request for
  forcelist statuses and transport errors until the budget is exhausted and
  then raises a `RequestException` subclass;
* the `tenacity` `@retry(stop=stop_after_attempt(MAX_RETRIES),
  wait=wait_exponential(multiplier=1, min=4, max=10),
  retry=retry_if_exception_type((RequestException, ConnectionError)))`
  decorator re-runs the whole body (robots check, rate-limit wait, session
  call, `raise_for_status`) on any `RequestException`; the `ValueError`
  raised for robots-blocked URLs is not retryable and propagates at once. -/

inductive NetResult : Type where
  | transportError
  | status (code : Nat)

def STATUS_FORCELIST : List Nat := [429, 500, 502, 503, 504]

/-- Result of one `session.request` call as seen by `fetch_url`:
a response, or a raised `RequestException` subclass. -/
inductive SessionResult : Type where
  | resp (code : Nat)
  | connectionError
  | retryError

/-- One `session.request` with the urllib3 `Retry` budget: consume physical
exchanges starting at index `k` until a non-forcelist response or an
exhausted budget.  Returns the result and the next free exchange index. -/
def sessionRequest (net : Nat → NetResult) : Nat → Nat → SessionResult × Nat
  | budget, k =>
    match net k with
    | .transportError =>
      match budget with
      | 0 => (.connectionError, k + 1)
      | b + 1 => sessionRequest net b (k + 1)
    | .status c =>
      if STATUS_FORCELIST.contains c then
        match budget with
        | 0 => (.retryError, k + 1)
        | b + 1 => sessionRequest net b (k + 1)
      else (.resp c, k + 1)

/-- Request statistics of a scraper instance. -/
structure Stats where
  total_requests : Nat := 0
  successful_requests : Nat := 0
  failed_requests : Nat := 0
deriving DecidableEq

/-- Mutable state touched by `fetch_url`: the wall clock, the rate
limiter's timestamp window, the statistics counters and the number of
physical HTTP exchanges issued so far. -/
structure GatewayState where
  clock : Nat := 0
  rl : List Nat := []
  stats : Stats := {}
  netIdx : Nat := 0
deriving DecidableEq

/-- `RequestException`s observable by the tenacity wrapper. -/
inductive ReqExc : Type where
  | httpError (code : Nat)
  | connectionError
  | retryError
deriving DecidableEq

/-- Outcome of a whole `fetch_url` call. -/
inductive FetchOutcome : Type where
  | success (code : Nat)
  | policyBlocked
  | exhausted (last : ReqExc)
deriving DecidableEq

/-- One attempt of the decorated body: robots check, rate-limit wait,
statistics update, session call, `raise_for_status`.  `Except.error none`
is the non-retryable `ValueError` (robots-blocked); `Except.error (some e)`
a retryable `RequestException`. -/
def attemptOnce (net : Nat → NetResult) (blocked : Bool) (gap δ : Nat)
    (st : GatewayState) : Except (Option ReqExc) Nat × GatewayState :=
  if blocked then (.error none, st)
  else
    let w := RateLimiter.wait_if_needed
      ⟨RATE_LIMIT_CALLS, RATE_LIMIT_PERIOD, st.rl⟩ (st.clock + gap) δ
    let st1 : GatewayState :=
      { st with clock := w.1, rl := w.2.timestamps,
                stats := { st.stats with
                            total_requests := st.stats.total_requests + 1 } }
    let s := sessionRequest net MAX_RETRIES st1.netIdx
    let st2 := { st1 with netIdx := s.2 }
    match s.1 with
    | .resp c =>
      if 400 ≤ c ∧ c < 600 then
        (.error (some (.httpError c)),
         { st2 with stats := { st2.stats with
             failed_requests := st2.stats.failed_requests + 1 } })
      else
        (.ok c,
         { st2 with stats := { st2.stats with
             successful_requests := st2.stats.successful_requests + 1 } })
    | .connectionError =>
      (.error (some .connectionError),
       { st2 with stats := { st2.stats with
           failed_requests := st2.stats.failed_requests + 1 } })
    | .retryError =>
      (.error (some .retryError),
       { st2 with stats := { st2.stats with
           failed_requests := st2.stats.failed_requests + 1 } })

/-- tenacity `wait_exponential(multiplier=1, min=4, max=10)`: sleep after
the `n`-th failed attempt (`n ≥ 1`). -/
def backoffWait (n : Nat) : Nat := min (max (2 ^ (n - 1)) 4) 10

/-- The tenacity loop: `remaining` attempts are still allowed, `n` is the
number of the next attempt.  Each trace element of `sched` supplies the
`(gap, δ)` pair for that attempt's rate-limit call.  Also returns the list
of backoff sleeps performed. -/
def fetchUrlGo (net : Nat → NetResult) (blocked : Bool) :
    Nat → Nat → List (Nat × Nat) → GatewayState →
    FetchOutcome × GatewayState × List Nat
  | 0, _, _, st => (.exhausted .connectionError, st, [])
  | remaining + 1, n, sched, st =>
    let gd := sched.headD (0, 0)
    let a := attemptOnce net blocked gd.1 gd.2 st
    match a.1 with
    | .ok c => (.success c, a.2, [])
    | .error none => (.policyBlocked, a.2, [])
    | .error (some e) =>
      match remaining with
      | 0 => (.exhausted e, a.2, [])
      | r + 1 =>
        let w := backoffWait n
        let st' := { a.2 with clock := a.2.clock + w }
        let rest := fetchUrlGo net blocked (r + 1) (n + 1) sched.tail st'
        (rest.1, rest.2.1, w :: rest.2.2)

/-- `fetch_url`, from the caller's point of view: up to `MAX_RETRIES`
tenacity attempts starting at attempt number 1. -/
def fetchUrl (net : Nat → NetResult) (blocked : Bool)
    (sched : List (Nat × Nat)) (st : GatewayState) :
    FetchOutcome × GatewayState × List Nat :=
  fetchUrlGo net blocked MAX_RETRIES 1 sched st

/-! ### Invariant of the rate-limiter state

`RLInv calls period clock ts acqs` relates the limiter's deque `ts` to the
full history `acqs` of acquisition instants after the last call returned at
instant `clock`: the history is chronological, the deque holds exactly the
acquisitions still inside the trailing window at `clock`, and no trailing
window of length `period` ever holds more than `calls` acquisitions. -/

def RLInv (calls period clock : Nat) (ts acqs : List Nat) : Prop :=
  acqs.Sorted (· ≤ ·) ∧
  (∀ a ∈ acqs, a ≤ clock) ∧
  ts = acqs.filter (fun a => decide (clock < a + period)) ∧
  ∀ t, windowCount period t acqs ≤ calls

/-! ### Concrete instances used by the claims -/

/-- Validator over an empty author configuration. -/
def v0 : AuthenticityValidator := AuthenticityValidator.init []

/-- The worked-example profile: official domain `tim.blog`, one configured
blog named "Tim's Blog". -/
def vC3 : AuthenticityValidator :=
  AuthenticityValidator.init
    [("tim", { name := some "Tim Ferriss",
               official_domains := ["tim.blog"],
               blogs := [{ name := some "Tim's Blog",
                           url := some "https://tim.blog" }] })]

/-- The worked-example metadata (spec §8): blog name, word count 500 and an
empty metrics dict. -/
def mdC3 : Dict :=
  [("blog_name", .str "Tim's Blog"), ("word_count", .nat 500),
   ("metrics", .dict [])]

/-- The worked-example record. -/
def recC3 : ContentRecord :=
  { author := some "tim", platform := "blog", url := "https://tim.blog/x",
    metadata := mdC3 }

/-- A record whose metadata has exactly two keys: scoring it adds the
`validation` key, so re-scoring the result sees three keys. -/
def recTwoKeys : ContentRecord :=
  { author := some "a", metadata := [("k1", .nat 1), ("k2", .nat 1)] }

/-- A record with three metadata keys (used to exercise the stable case of
re-scoring). -/
def recThreeKeys : ContentRecord :=
  { author := some "a",
    metadata := [("x", .nat 1), ("y", .nat 1), ("z", .nat 1)] }

/-- `validate v0 recThreeKeys` evaluates to exactly this record. -/
def recThreeKeys' : ContentRecord :=
  { author := some "a",
    metadata := [("x", .nat 1), ("y", .nat 1), ("z", .nat 1),
                 ("validation",
                  .dict [("authenticity_score", .nat 5),
                         ("passed", .bool false)])],
    authenticity_score := some 5 }

/-- A record whose scoring raises a Python `TypeError`
(`metadata['word_count']` is a string, compared with `> 50`). -/
def recPoison : ContentRecord :=
  { author := some "a", metadata := [("word_count", .str "oops")] }

/-- A network that answers the first exchange with HTTP 404 and every later
one with HTTP 200. -/
def net404 : Nat → NetResult :=
  fun k => if k = 0 then .status 404 else .status 200

/-! ## Theorems -/

/-- C3 (counterexample): on the worked example the metadata sub-score is 15,
not 20 — the empty `metrics` dict is falsy and earns no +5 — so the total
score is 95, not the claimed 100. -/
theorem C3_counterexample :
    verify_metadata mdC3 = Except.ok 15 ∧
    calculate_authenticity_score vC3 "tim" "blog" "https://tim.blog/x" mdC3 =
      Except.ok 95 ∧
    (15 : Nat) ≠ 20 ∧ (95 : Nat) ≠ 100 := by
  refine ⟨rfl, rfl, by decide, by decide⟩

/-- C3 (amended): on the worked example the scorer returns domain sub-score
40, platform sub-score 40, metadata sub-score 15 (the empty `metrics` dict is
falsy and earns no +5), total score 95, and `passed = true` at the default
threshold 75: `validate` writes `authenticity_score = 95` and
`metadata.validation = {authenticity_score: 95, passed: true}`. -/
theorem C3_amended :
    verify_domain vC3 "tim" "https://tim.blog/x" = 40 ∧
    verify_platform vC3 "tim" "blog" mdC3 = 40 ∧
    verify_metadata mdC3 = Except.ok 15 ∧
    validate vC3 recC3 =
      Except.ok
        { author := some "tim", platform := "blog",
          url := "https://tim.blog/x",
          metadata :=
            [("blog_name", .str "Tim's Blog"), ("word_count", .nat 500),
             ("metrics", .dict []),
             ("validation",
              .dict [("authenticity_score", .nat 95),
                     ("passed", .bool true)])],
          authenticity_score := some 95 } := by
  refine ⟨rfl, rfl, rfl, rfl⟩

/-- C5: domain sub-score rule — a missing URL scores 0; with a URL present,
an author without configured domains scores 20; an exact (www-stripped) host
match scores 40; a proper subdomain of a configured domain scores 35; a host
matching nothing scores 0. -/
theorem C5_domain_rule (v : AuthenticityValidator) (author_id url : String) :
    (url = "" → verify_domain v author_id url = 0) ∧
    (url ≠ "" → lookupD v.official_domains author_id [] = [] →
      verify_domain v author_id url = 20) ∧
    (url ≠ "" → urlDomain url ∈ lookupD v.official_domains author_id [] →
      verify_domain v author_id url = 40) ∧
    (url ≠ "" → urlDomain url ∉ lookupD v.official_domains author_id [] →
      (∃ d ∈ lookupD v.official_domains author_id [],
        strEndsWith (urlDomain url) ("." ++ d) = true) →
      verify_domain v author_id url = 35) ∧
    (url ≠ "" → lookupD v.official_domains author_id [] ≠ [] →
      urlDomain url ∉ lookupD v.official_domains author_id [] →
      (∀ d ∈ lookupD v.official_domains author_id [],
        ¬ strEndsWith (urlDomain url) ("." ++ d) = true) →
      verify_domain v author_id url = 0) := by
  refine ⟨?_, ?_, ?_, ?_, ?_⟩
  · intro h
    simp [verify_domain, h]
  · intro h hempty
    simp [verify_domain, h, hempty]
  · intro h hmem
    have hne : lookupD v.official_domains author_id [] ≠ [] := by
      intro hnil; rw [hnil] at hmem; simp at hmem
    simp [verify_domain, h, List.isEmpty_iff, hne, List.contains,
      List.elem_iff, hmem]
  · intro h hmem hsub
    have hne : lookupD v.official_domains author_id [] ≠ [] := by
      intro hnil; rw [hnil] at hsub; obtain ⟨d, hd, _⟩ := hsub; simp at hd
    have hany : (lookupD v.official_domains author_id []).any
        (fun d => strEndsWith (urlDomain url) ("." ++ d) ||
          urlDomain url == d) = true := by
      obtain ⟨d, hd, hend⟩ := hsub
      exact List.any_eq_true.mpr ⟨d, hd, by simp [hend]⟩
    simp [verify_domain, h, List.isEmpty_iff, hne, List.contains,
      List.elem_iff, hmem, hany]
  · intro h hne hmem hnosub
    have hany : (lookupD v.official_domains author_id []).any
        (fun d => strEndsWith (urlDomain url) ("." ++ d) ||
          urlDomain url == d) = false := by
      rw [List.any_eq_false]
      intro d hd
      have h1 := hnosub d hd
      have h2 : (urlDomain url == d) = false := by
        cases hbe : (urlDomain url == d) with
        | true => exact absurd (eq_of_beq hbe ▸ hd) hmem
        | false => rfl
      simp [h2, h1]
    simp [verify_domain, h, List.isEmpty_iff, hne, List.contains,
      List.elem_iff, hmem, hany]

/-- C5 (witness): on the worked-example profile, `https://sub.tim.blog/x`
is a subdomain match scoring 35. -/
theorem C5_domain_rule_witness :
    verify_domain vC3 "tim" "https://sub.tim.blog/x" = 35 :=
  (C5_domain_rule vC3 "tim" "https://sub.tim.blog/x").2.2.2.1
    (by decide) (by decide) (by decide)

/-- C6 (counterexample): the empty platform string is outside the five
known platforms, yet `_verify_platform` scores it 0, not the neutral 20. -/
theorem C6_counterexample :
    verify_platform v0 "a" "" [] = 0 ∧ (0 : Nat) ≠ 20 :=
  ⟨rfl, by decide⟩

/-- C6 (amended): platform sub-score dispatch — twitter always 40; youtube
40 on a channel-name match, 30 with no configured channels, else 15; blog 40
on a blog-name or domain match, else 15; podcast 40 on a podcast-name match,
else 25; book 40 on a book-title match, else 10; every OTHER NON-EMPTY
platform yields the neutral 20, while an empty/missing platform yields 0. -/
theorem C6_amended (v : AuthenticityValidator) (author_id platform : String)
    (metadata : Dict) :
    (platform = "" → verify_platform v author_id platform metadata = 0) ∧
    (platform = "twitter" →
      verify_platform v author_id platform metadata = 40) ∧
    (platform = "youtube" →
      (lookupD v.authors_config author_id {}).youtube_channels.any
        (fun ch => pyEq ch.name
          ((dget metadata "channel_name").getD (.str ""))) = true →
      verify_platform v author_id platform metadata = 40) ∧
    (platform = "youtube" →
      (lookupD v.authors_config author_id {}).youtube_channels = [] →
      verify_platform v author_id platform metadata = 30) ∧
    (platform = "youtube" →
      (lookupD v.authors_config author_id {}).youtube_channels.any
        (fun ch => pyEq ch.name
          ((dget metadata "channel_name").getD (.str ""))) = false →
      (lookupD v.authors_config author_id {}).youtube_channels ≠ [] →
      verify_platform v author_id platform metadata = 15) ∧
    (platform = "blog" →
      (lookupD v.authors_config author_id {}).blogs.any
        (fun b => pyEq b.name ((dget metadata "blog_name").getD (.str "")) ||
          pyEq (some (urlDomain (b.url.getD "")))
            ((dget metadata "domain").getD (.str ""))) = true →
      verify_platform v author_id platform metadata = 40) ∧
    (platform = "blog" →
      (lookupD v.authors_config author_id {}).blogs.any
        (fun b => pyEq b.name ((dget metadata "blog_name").getD (.str "")) ||
          pyEq (some (urlDomain (b.url.getD "")))
            ((dget metadata "domain").getD (.str ""))) = false →
      verify_platform v author_id platform metadata = 15) ∧
    (platform = "podcast" →
      (lookupD v.authors_config author_id {}).podcasts.any
        (fun p => pyEq p.name
          ((dget metadata "podcast_name").getD (.str ""))) = true →
      verify_platform v author_id platform metadata = 40) ∧
    (platform = "podcast" →
      (lookupD v.authors_config author_id {}).podcasts.any
        (fun p => pyEq p.name
          ((dget metadata "podcast_name").getD (.str ""))) = false →
      verify_platform v author_id platform metadata = 25) ∧
    (platform = "book" →
      (lookupD v.authors_config author_id {}).books.any
        (fun b => pyEq b.title
          ((dget metadata "book_title").getD (.str ""))) = true →
      verify_platform v author_id platform metadata = 40) ∧
    (platform = "book" →
      (lookupD v.authors_config author_id {}).books.any
        (fun b => pyEq b.title
          ((dget metadata "book_title").getD (.str ""))) = false →
      verify_platform v author_id platform metadata = 10) ∧
    (platform ≠ "" → platform ≠ "twitter" → platform ≠ "youtube" →
      platform ≠ "blog" → platform ≠ "podcast" → platform ≠ "book" →
      verify_platform v author_id platform metadata = 20) := by
  refine ⟨?_, ?_, ?_, ?_, ?_, ?_, ?_, ?_, ?_, ?_, ?_, ?_⟩
  · intro h; subst h; simp [verify_platform]
  · intro h; subst h; simp [verify_platform, verify_twitter]
  · intro h hany; subst h
    simp [verify_platform, verify_youtube, hany]
  · intro h hnil; subst h
    simp [verify_platform, verify_youtube, hnil, List.isEmpty_iff]
  · intro h hany hnil; subst h
    simp [verify_platform, verify_youtube, hany, List.isEmpty_iff, hnil]
  · intro h hany; subst h
    simp [verify_platform, verify_blog, hany]
  · intro h hany; subst h
    simp [verify_platform, verify_blog, hany]
  · intro h hany; subst h
    simp [verify_platform, verify_podcast, hany]
  · intro h hany; subst h
    simp [verify_platform, verify_podcast, hany]
  · intro h hany; subst h
    simp [verify_platform, verify_book, hany]
  · intro h hany; subst h
    simp [verify_platform, verify_book, hany]
  · intro h0 h1 h2 h3 h4 h5
    simp [verify_platform, beq_iff_eq, h0, h1, h2, h3, h4, h5]

/-- C6 (witness): podcast content with no configured podcast-name match
scores 25 (possible guest appearance). -/
theorem C6_amended_witness : verify_platform v0 "a" "podcast" [] = 25 :=
  (C6_amended v0 "a" "podcast" []).2.2.2.2.2.2.2.2.1 rfl (by decide)

/-- C7 (counterexample): a metadata map whose `word_count` key is present
with value 0 does NOT earn the third +5 — `metadata.get('word_count')` is
tested for truthiness, not presence — so its sub-score is 0, not the
claimed 5. -/
theorem C7_counterexample :
    verify_metadata [("word_count", .nat 0)] = Except.ok 0 ∧
    (Except.ok 0 : Except Unit Nat) ≠ Except.ok 5 :=
  ⟨rfl, by simp⟩

/-- C7 (amended): for metadata whose `word_count` admits the Python `> 50`
comparison, the sub-score is the sum of four independent +5 checks — so it
lies in 0–20 in increments of 5 — where the checks are: `word_count > 50`;
`metrics` present and truthy (non-empty); `word_count` present AND TRUTHY
(a present-but-zero `word_count` earns nothing); and more than 2 metadata
keys in total. -/
theorem C7_amended (metadata : Dict) (b : Bool)
    (h : pyGt ((dget metadata "word_count").getD (.nat 0)) 50 = Except.ok b) :
    ∃ c1 c2 c3 c4 : Bool,
      verify_metadata metadata =
        Except.ok (5 * (cond c1 1 0 + cond c2 1 0 + cond c3 1 0 +
          cond c4 1 0)) ∧
      c1 = b ∧
      (c2 = true ↔ ∃ val, dget metadata "metrics" = some val ∧
        pyTruthy val = true) ∧
      (c3 = true ↔ ∃ val, dget metadata "word_count" = some val ∧
        pyTruthy val = true) ∧
      (c4 = true ↔ 2 < dlen metadata) := by
  refine ⟨b, (dget metadata "metrics").elim false pyTruthy,
    (dget metadata "word_count").elim false pyTruthy,
    decide (2 < dlen metadata), ?_, rfl, ?_, ?_, ?_⟩
  · unfold verify_metadata
    rw [h]
    show Except.ok _ = Except.ok _
    congr 1
    cases b <;>
      cases hm : (dget metadata "metrics").elim false pyTruthy <;>
      cases hw : (dget metadata "word_count").elim false pyTruthy <;>
      rcases Nat.lt_or_ge 2 (dlen metadata) with hl | hl <;>
      simp [hm, hw, hl, Nat.not_lt_of_le, Nat.min_def]
  · cases hm : dget metadata "metrics" with
    | none => simp [hm]
    | some val => simp [hm]
  · cases hw : dget metadata "word_count" with
    | none => simp [hw]
    | some val => simp [hw]
  · simp

/-- C7 (witness): metadata with word count 100, non-empty metrics and a
third key passes all four checks for a sub-score of 20. -/
theorem C7_amended_witness :
    ∃ c1 c2 c3 c4 : Bool,
      verify_metadata
        [("word_count", .nat 100), ("metrics", .dict [("likes", .nat 3)]),
         ("extra", .str "e")] =
        Except.ok (5 * (cond c1 1 0 + cond c2 1 0 + cond c3 1 0 +
          cond c4 1 0)) ∧
      c1 = true ∧
      (c2 = true ↔ ∃ val,
        dget [("word_count", .nat 100),
              ("metrics", .dict [("likes", .nat 3)]),
              ("extra", .str "e")] "metrics" = some val ∧
        pyTruthy val = true) ∧
      (c3 = true ↔ ∃ val,
        dget [("word_count", .nat 100),
              ("metrics", .dict [("likes", .nat 3)]),
              ("extra", .str "e")] "word_count" = some val ∧
        pyTruthy val = true) ∧
      (c4 = true ↔ 2 < dlen
        [("word_count", .nat 100), ("metrics", .dict [("likes", .nat 3)]),
         ("extra", .str "e")]) :=
  C7_amended
    [("word_count", .nat 100), ("metrics", .dict [("likes", .nat 3)]),
     ("extra", .str "e")] true rfl

/-- C9: `validate_batch` processes each record independently in order —
the result is the element-wise image of the batch, has the same length, and
a record whose validation raises is kept with `authenticity_score = 0`. -/
theorem C9_batch (v : AuthenticityValidator) (contents : List ContentRecord) :
    validate_batch v contents = contents.map (fun c =>
      match validate v c with
      | .ok r => r
      | .error _ => { c with authenticity_score := some 0 }) ∧
    (validate_batch v contents).length = contents.length ∧
    (∀ c ∈ contents, validate v c = .error () →
      { c with authenticity_score := some 0 } ∈ validate_batch v contents) := by
  have hmap : validate_batch v contents = contents.map (fun c =>
      match validate v c with
      | .ok r => r
      | .error _ => { c with authenticity_score := some 0 }) := by
    have hcons : ∀ (c : ContentRecord) (rest : List ContentRecord),
        validate_batch v (c :: rest) =
          match validate v c with
          | .ok r => r :: validate_batch v rest
          | .error _ =>
            { c with authenticity_score := some 0 } :: validate_batch v rest :=
      fun c rest => rfl
    induction contents with
    | nil => rfl
    | cons c rest ih =>
      rw [hcons, List.map_cons]
      cases hv : validate v c <;> simp [hv, ih]
  refine ⟨hmap, by rw [hmap, List.length_map], ?_⟩
  intro c hc herr
  rw [hmap]
  exact List.mem_map.mpr ⟨c, hc, by rw [herr]⟩

/-- C9 (witness): a batch containing a record whose scoring raises a
`TypeError` still contains that record, scored 0. -/
theorem C9_batch_witness :
    { recPoison with authenticity_score := some 0 } ∈
      validate_batch v0 [recThreeKeys, recPoison] :=
  (C9_batch v0 [recThreeKeys, recPoison]).2.2 recPoison (by simp) rfl

/-- C10: `filter_by_score` treats a caller-supplied threshold of 0 exactly
like `None` — both fall back to the default 75 — and any record lacking an
`authenticity_score` key is treated as scoring 0, hence dropped whenever the
effective threshold is positive. -/
theorem C10_filter (contents : List ContentRecord) :
    filter_by_score contents (some 0) = filter_by_score contents none ∧
    filter_by_score contents (some 0) =
      contents.filter
        (fun c => MIN_AUTHENTICITY_SCORE ≤ c.authenticity_score.getD 0) ∧
    ∀ m (c : ContentRecord), c ∈ contents → c.authenticity_score = none →
      0 < effectiveMinScore m → c ∉ filter_by_score contents m := by
  refine ⟨rfl, rfl, ?_⟩
  intro m c _ hscore hpos hmem
  have h2 := (List.mem_filter.mp hmem).2
  simp [hscore] at h2
  omega

/-- C10 (witness): a fresh record (no `authenticity_score` key) is dropped
by `filter_by_score(contents, 0)`. -/
theorem C10_filter_witness :
    ({} : ContentRecord) ∉ filter_by_score [{}] (some 0) :=
  (C10_filter [{}]).2.2 (some 0) {} (by simp) rfl (by decide)

/-- C8: a robots-blocked URL makes `fetch_url` raise the policy error
immediately: no HTTP exchange is issued, the rate-limiter window, the
statistics counters and the whole gateway state are unchanged, and after
`n` such blocked calls the state is still what it was before them. -/
theorem C8_policy_blocked (net : Nat → NetResult) (sched : List (Nat × Nat))
    (st : GatewayState) (n : Nat) :
    fetchUrl net true sched st = (.policyBlocked, st, []) ∧
    (fun s => (fetchUrl net true sched s).2.1)^[n] st = st := by
  have h1 : ∀ s : GatewayState, fetchUrl net true sched s =
      (.policyBlocked, s, []) := fun s => rfl
  exact ⟨h1 st, Function.iterate_fixed (by rw [h1 st]) n⟩

/-! ### Dictionary update lemmas (shared helpers) -/

theorem dget_dset_self (d : Dict) (k : String) (v : MetaVal) :
    dget (dset d k v) k = some v := by
  induction d with
  | nil => simp [dget, dset]
  | cons p rest ih =>
    cases hp : (p.1 == k) <;> simp [dget, dset, hp, ih]

theorem dget_dset_ne (d : Dict) (k : String) (v : MetaVal) (k' : String)
    (h : k' ≠ k) :
    dget (dset d k v) k' = dget d k' := by
  have hbe : (k == k') = false := by
    cases hb : (k == k')
    · rfl
    · exact absurd (eq_of_beq hb).symm h
  induction d with
  | nil => simp [dget, dset, hbe]
  | cons p rest ih =>
    cases hp : (p.1 == k)
    · simp [dget, dset, hp, ih]
    · have hpk : p.1 = k := eq_of_beq hp
      simp [dget, dset, hp, hpk, hbe]

theorem hasKey_dset_self (d : Dict) (k : String) (v : MetaVal) :
    hasKey (dset d k v) k = true := by
  induction d with
  | nil => simp [hasKey, dset]
  | cons p rest ih =>
    cases hp : (p.1 == k) <;> simp [hasKey, dset, hp, ih]

theorem dlen_dset (d : Dict) (k : String) (v : MetaVal) :
    dlen (dset d k v) = if hasKey d k then dlen d else dlen d + 1 := by
  induction d with
  | nil => simp [dlen, hasKey, dset]
  | cons p rest ih =>
    cases hp : (p.1 == k)
    · simp only [dset, hp, if_false, Bool.false_eq_true, dlen, hasKey,
        List.length_cons, Bool.false_or] at *
      rw [ih]
      cases hk : hasKey rest k <;> simp [hk]
    · simp [dlen, dset, hasKey, hp]

/-! ### Scoring congruence: the sub-scores ignore the `validation` key -/

theorem verify_platform_congr (v : AuthenticityValidator) (aid p : String)
    (md md' : Dict) (h : ∀ k, k ≠ "validation" → dget md' k = dget md k) :
    verify_platform v aid p md' = verify_platform v aid p md := by
  unfold verify_platform verify_twitter verify_youtube verify_blog
    verify_podcast verify_book
  rw [h "channel_name" (by decide), h "blog_name" (by decide),
    h "domain" (by decide), h "podcast_name" (by decide),
    h "book_title" (by decide)]

theorem verify_metadata_congr (md md' : Dict)
    (h : ∀ k, k ≠ "validation" → dget md' k = dget md k)
    (hlen : (2 < dlen md') ↔ (2 < dlen md)) :
    verify_metadata md' = verify_metadata md := by
  have h4 : (if 2 < dlen md' then (5 : Nat) else 0) =
      (if 2 < dlen md then 5 else 0) := by
    by_cases h2 : 2 < dlen md
    · rw [if_pos h2, if_pos (hlen.mpr h2)]
    · rw [if_neg h2, if_neg (fun hc => h2 (hlen.mp hc))]
  unfold verify_metadata
  rw [h "word_count" (by decide), h "metrics" (by decide), h4]

theorem calculate_congr (v : AuthenticityValidator) (aid p url : String)
    (md md' : Dict)
    (h : ∀ k, k ≠ "validation" → dget md' k = dget md k)
    (hlen : (2 < dlen md') ↔ (2 < dlen md)) :
    calculate_authenticity_score v aid p url md' =
      calculate_authenticity_score v aid p url md := by
  unfold calculate_authenticity_score
  rw [verify_platform_congr v aid p md md' h,
    verify_metadata_congr md md' h hlen]

/-- C4 (counterexample): `validate` is deterministic, but it mutates the
record: re-scoring the RECORD RETURNED by a first call can assign a
different score.  With two metadata keys, the first call scores 0 and adds
the `validation` key; the second call then sees three keys and scores 5. -/
theorem C4_counterexample :
    (validate v0 recTwoKeys).toOption.map
      (fun r => r.authenticity_score) = some (some 0) ∧
    ((validate v0 recTwoKeys).toOption.bind
      (fun r => (validate v0 r).toOption)).map
      (fun r => r.authenticity_score) = some (some 5) ∧
    (some (0 : Nat) : Option Nat) ≠ some 5 :=
  ⟨rfl, rfl, by simp⟩

/-- C4 (amended): scoring is deterministic — identical `(record, profile)`
inputs give identical results, since `validate` is a pure function — and
re-scoring the record returned by a first successful call reproduces the
same `authenticity_score` PROVIDED the added `validation` key does not
change the more-than-2-keys metadata check (the original metadata has more
than 2 keys, or already had a `validation` key, or the record is rejected
for a missing author).  Without that proviso the score can change, as the
counterexample shows. -/
theorem C4_amended (v : AuthenticityValidator) (r r' : ContentRecord)
    (h : validate v r = .ok r')
    (hk : 2 < dlen r.metadata ∨ hasKey r.metadata "validation" = true ∨
      pyFalsyOptStr r.author = true) :
    ∃ r'', validate v r' = .ok r'' ∧
      r''.authenticity_score = r'.authenticity_score := by
  cases hfa : pyFalsyOptStr r.author with
  | true =>
    have hr' : r' = { r with authenticity_score := some 0 } := by
      unfold validate at h
      rw [if_pos hfa] at h
      exact (Except.ok.injEq _ _).mp h.symm
    have hfa' : pyFalsyOptStr r'.author = true := by rw [hr']; exact hfa
    refine ⟨{ r' with authenticity_score := some 0 }, ?_, ?_⟩
    · unfold validate
      rw [if_pos hfa']
    · simp [hr']
  | false =>
    unfold validate at h
    rw [if_neg (by simp [hfa])] at h
    cases hcalc : calculate_authenticity_score v (r.author.getD "")
        r.platform r.url r.metadata with
    | error e =>
      rw [hcalc] at h
      exact absurd h (by simp)
    | ok score =>
      rw [hcalc] at h
      dsimp only [] at h
      cases hdv : dget (if hasKey r.metadata "validation" then r.metadata
          else dset r.metadata "validation" (.dict [])) "validation" with
      | none =>
        rw [hdv] at h
        exact absurd h (by simp)
      | some val =>
        cases val with
        | nat n => rw [hdv] at h; exact absurd h (by simp)
        | str s => rw [hdv] at h; exact absurd h (by simp)
        | bool b => rw [hdv] at h; exact absurd h (by simp)
        | dict dd =>
          rw [hdv] at h
          have hr' : r' = { r with
              authenticity_score := some score,
              metadata := dset (if hasKey r.metadata "validation" then
                  r.metadata else dset r.metadata "validation" (.dict []))
                "validation"
                (.dict (dset (dset dd "authenticity_score" (.nat score))
                  "passed"
                  (.bool (decide (MIN_AUTHENTICITY_SCORE ≤ score))))) } :=
            (Except.ok.injEq _ _).mp h.symm
          set A := (if hasKey r.metadata "validation" then r.metadata
            else dset r.metadata "validation" (.dict [])) with hA
          set D1 := dset (dset dd "authenticity_score" (.nat score)) "passed"
            (.bool (decide (MIN_AUTHENTICITY_SCORE ≤ score))) with hD1
          have hAkey : hasKey A "validation" = true := by
            cases hvk : hasKey r.metadata "validation"
            · simp only [hA, hvk, Bool.false_eq_true, if_false]
              exact hasKey_dset_self _ _ _
            · simp [hA, hvk]
          have hmet : r'.metadata = dset A "validation" (.dict D1) := by
            rw [hr']
          have hget' : ∀ k, k ≠ "validation" →
              dget r'.metadata k = dget r.metadata k := by
            intro k hkne
            rw [hmet, dget_dset_ne _ _ _ _ hkne]
            cases hvk : hasKey r.metadata "validation"
            · simp only [hA, hvk, Bool.false_eq_true, if_false]
              exact dget_dset_ne _ _ _ _ hkne
            · simp [hA, hvk]
          have hlen' : (2 < dlen r'.metadata) ↔ (2 < dlen r.metadata) := by
            rw [hmet, dlen_dset, if_pos hAkey]
            cases hvk : hasKey r.metadata "validation"
            · have hlA : dlen A = dlen r.metadata + 1 := by
                simp only [hA, hvk, Bool.false_eq_true, if_false]
                rw [dlen_dset, if_neg (by simp [hvk])]
              have h2 : 2 < dlen r.metadata := by
                rcases hk with h' | h' | h'
                · exact h'
                · rw [hvk] at h'; cases h'
                · rw [hfa] at h'; cases h'
              rw [hlA]
              exact ⟨fun _ => h2, fun _ => by omega⟩
            · have hlA : dlen A = dlen r.metadata := by simp [hA, hvk]
              rw [hlA]
          have hfa' : pyFalsyOptStr r'.author = false := by
            rw [hr']; exact hfa
          have hcalc' : calculate_authenticity_score v (r'.author.getD "")
              r'.platform r'.url r'.metadata = .ok score := by
            have hau : r'.author = r.author := by rw [hr']
            have hpf : r'.platform = r.platform := by rw [hr']
            have hur : r'.url = r.url := by rw [hr']
            rw [hau, hpf, hur,
              calculate_congr v _ _ _ r.metadata r'.metadata hget' hlen',
              hcalc]
          have hkey2 : hasKey r'.metadata "validation" = true := by
            rw [hmet]; exact hasKey_dset_self _ _ _
          have hdv2 : dget r'.metadata "validation" = some (.dict D1) := by
            rw [hmet]; exact dget_dset_self _ _ _
          refine ⟨{ r' with
                      authenticity_score := some score,
                      metadata := dset r'.metadata "validation"
                        (.dict (dset (dset D1 "authenticity_score"
                          (.nat score)) "passed"
                          (.bool (decide (MIN_AUTHENTICITY_SCORE ≤ score))))) },
            ?_, ?_⟩
          · unfold validate
            rw [if_neg (by simp [hfa']), hcalc']
            dsimp only []
            rw [if_pos hkey2, hdv2]
          · rw [hr']

/-- C4 (witness): a record with three metadata keys re-scores to the same
authenticity score after a first validation pass. -/
theorem C4_amended_witness :
    ∃ r'', validate v0 recThreeKeys' = Except.ok r'' ∧
      r''.authenticity_score = recThreeKeys'.authenticity_score :=
  C4_amended v0 recThreeKeys recThreeKeys' rfl (Or.inl (by decide))

/-! ### Fetch gateway lemmas (helpers for the retry analysis) -/

/-- With robots allowing the URL, an attempt never raises the policy
`ValueError`. -/
theorem attemptOnce_ne_blocked (net : Nat → NetResult) (g d : Nat)
    (st : GatewayState) : (attemptOnce net false g d st).1 ≠ .error none := by
  unfold attemptOnce
  simp only [Bool.false_eq_true, if_false]
  split <;> (try split) <;> simp

/-- Shape of the tenacity backoff: with `rem` attempts still allowed and
the next attempt numbered `n`, at most `rem - 1` sleeps happen, the `i`-th
recorded sleep is `backoffWait (n + i)`, and an exhausted outcome means all
`rem - 1` sleeps happened. -/
theorem fetchUrlGo_waits (net : Nat → NetResult) :
    ∀ (rem n : Nat) (sched : List (Nat × Nat)) (st : GatewayState),
      (fetchUrlGo net false rem n sched st).2.2.length ≤ rem - 1 ∧
      (fetchUrlGo net false rem n sched st).2.2 =
        (List.range (fetchUrlGo net false rem n sched st).2.2.length).map
          (fun i => backoffWait (n + i)) ∧
      (∀ e, (fetchUrlGo net false rem n sched st).1 = .exhausted e →
        (fetchUrlGo net false rem n sched st).2.2.length = rem - 1) := by
  intro rem
  induction rem with
  | zero => intro n sched st; exact ⟨by simp [fetchUrlGo], rfl, fun e _ => rfl⟩
  | succ r ih =>
    intro n sched st
    rcases ha : attemptOnce net false (sched.headD (0, 0)).1
        (sched.headD (0, 0)).2 st with ⟨res, st2⟩
    cases res with
    | ok c =>
      have hgo : fetchUrlGo net false (r + 1) n sched st =
          (.success c, st2, []) := by
        unfold fetchUrlGo
        dsimp only []
        rw [ha]
      rw [hgo]
      exact ⟨by simp, rfl, fun e he => by cases he⟩
    | error oe =>
      cases oe with
      | none =>
        exact absurd (by rw [ha]) (attemptOnce_ne_blocked net _ _ st)
      | some e =>
        cases r with
        | zero =>
          have hgo : fetchUrlGo net false 1 n sched st =
              (.exhausted e, st2, []) := by
            unfold fetchUrlGo
            dsimp only []
            rw [ha]
          rw [hgo]
          exact ⟨by simp, rfl, fun e _ => rfl⟩
        | succ r' =>
          have hgo : fetchUrlGo net false (r' + 1 + 1) n sched st =
              ((fetchUrlGo net false (r' + 1) (n + 1) sched.tail
                  { st2 with clock := st2.clock + backoffWait n }).1,
               (fetchUrlGo net false (r' + 1) (n + 1) sched.tail
                  { st2 with clock := st2.clock + backoffWait n }).2.1,
               backoffWait n ::
                 (fetchUrlGo net false (r' + 1) (n + 1) sched.tail
                   { st2 with clock := st2.clock + backoffWait n }).2.2) := by
            conv_lhs => unfold fetchUrlGo
            dsimp only []
            rw [ha]
          obtain ⟨ih1, ih2, ih3⟩ := ih (n + 1) sched.tail
            { st2 with clock := st2.clock + backoffWait n }
          rw [hgo]
          refine ⟨by simpa using ih1, ?_, ?_⟩
          · simp only [List.length_cons, List.range_succ_eq_map,
              List.map_cons, List.map_map]
            have hfun : ((fun i => backoffWait (n + i)) ∘ Nat.succ) =
                (fun i => backoffWait (n + 1 + i)) :=
              funext fun i => congrArg backoffWait (by omega)
            rw [hfun, Nat.add_zero]
            exact congrArg (backoffWait n :: ·) ih2
          · intro e' he'
            simp only [List.length_cons]
            have := ih3 e' he'
            omega

/-- C2 (counterexample): HTTP 404 is a non-2xx status outside
`{429, 500, 502, 503, 504}`, yet `fetch_url` does NOT propagate it
immediately: `raise_for_status` turns it into a `RequestException`, which
the tenacity wrapper retries — a second physical request is issued after one
4-second backoff and the call returns the second attempt's 200. -/
theorem C2_counterexample :
    (fetchUrl net404 false [] {}).1 = .success 200 ∧
    (fetchUrl net404 false [] {}).2.1.netIdx = 2 ∧
    (fetchUrl net404 false [] {}).2.2 = [4] ∧
    (404 : Nat) ∉ STATUS_FORCELIST :=
  ⟨by decide, rfl, rfl, by decide⟩

/-- C2 (amended): every `RequestException` — including the `HTTPError`
raised for ANY 4xx/5xx status, not only `{429, 500, 502, 503, 504}` — is
retried by the fetch wrapper, up to `MAX_RETRIES` (3) total attempts with
the `n`-th retry waiting `min(max(2^(n-1), 4), 10)` seconds (so 4s, then
4s); only exhaustion propagates a failure.  Statuses in the forcelist are
additionally retried inside the HTTP session (`sessionRequest`). -/
theorem C2_amended :
    (∀ c : Nat, 400 ≤ c → c < 600 → c ∉ STATUS_FORCELIST →
      (fetchUrl (fun k => if k = 0 then .status c else .status 200)
          false [] {}).1 = .success 200 ∧
      (fetchUrl (fun k => if k = 0 then .status c else .status 200)
          false [] {}).2.2 = [backoffWait 1]) ∧
    (∀ (net : Nat → NetResult) (sched : List (Nat × Nat)) (st : GatewayState),
      (fetchUrl net false sched st).2.2.length ≤ MAX_RETRIES - 1 ∧
      (fetchUrl net false sched st).2.2 =
        (List.range (fetchUrl net false sched st).2.2.length).map
          (fun i => min (max (2 ^ i) 4) 10) ∧
      (∀ e, (fetchUrl net false sched st).1 = .exhausted e →
        (fetchUrl net false sched st).2.2.length = MAX_RETRIES - 1)) ∧
    backoffWait 1 = 4 ∧ backoffWait 2 = 4 := by
  refine ⟨?_, ?_, by decide, by decide⟩
  · intro c h4 h6 hmem
    interval_cases c <;> revert hmem <;> decide
  · intro net sched st
    simp only [fetchUrl]
    obtain ⟨h1, h2, h3⟩ := fetchUrlGo_waits net MAX_RETRIES 1 sched st
    refine ⟨h1, ?_, h3⟩
    conv_lhs => rw [h2]
    have hfun : (fun i => backoffWait (1 + i)) =
        (fun i => min (max (2 ^ i) 4) 10) :=
      funext fun i => by simp [backoffWait, Nat.add_sub_cancel_left]
    rw [hfun]

/-- C2 (witness): a 404 followed by a 200 yields success after exactly one
4-second backoff. -/
theorem C2_amended_witness :
    (fetchUrl (fun k => if k = 0 then .status 404 else .status 200)
        false [] {}).1 = .success 200 ∧
    (fetchUrl (fun k => if k = 0 then .status 404 else .status 200)
        false [] {}).2.2 = [backoffWait 1] :=
  C2_amended.1 404 (by decide) (by decide) (by decide)

/-! ### Rate-limiter lemmas (helpers for the sliding-window invariant) -/

theorem dropWhile_sorted_eq_filter (P c : Nat) :
    ∀ l : List Nat, l.Sorted (· ≤ ·) →
      l.dropWhile (fun t => decide (t + P ≤ c)) =
        l.filter (fun t => decide (c < t + P)) := by
  intro l hl
  induction l with
  | nil => rfl
  | cons a l ih =>
    rw [List.sorted_cons] at hl
    obtain ⟨hall, hsort⟩ := hl
    by_cases hac : a + P ≤ c
    · have hnlt : ¬ c < a + P := Nat.not_lt.mpr hac
      simp [List.dropWhile_cons, List.filter_cons, hac, hnlt, ih hsort]
    · have hlt : c < a + P := Nat.not_le.mp hac
      have hfl : l.filter (fun t => decide (c < t + P)) = l :=
        List.filter_eq_self.mpr (fun b hb => by
          have hab := hall b hb
          simpa using Nat.lt_of_lt_of_le hlt (Nat.add_le_add_right hab P))
      simp [List.dropWhile_cons, List.filter_cons, hac, hlt, hfl]

theorem filter_cut_cut (P clock now : Nat) (h : clock ≤ now) (l : List Nat) :
    (l.filter (fun a => decide (clock < a + P))).filter
        (fun a => decide (now < a + P)) =
      l.filter (fun a => decide (now < a + P)) := by
  rw [List.filter_filter]
  apply List.filter_congr
  intro a _
  by_cases hn : now < a + P
  · simp [hn, Nat.lt_of_le_of_lt h hn]
  · simp [hn]

theorem windowCount_le_filter (P now t : Nat) (l : List Nat)
    (hnt : now ≤ t) :
    windowCount P t l ≤ (l.filter (fun a => decide (now < a + P))).length := by
  rw [← List.countP_eq_length_filter]
  unfold windowCount
  apply List.countP_mono_left
  intro a _ hpa
  simp only [decide_eq_true_eq] at hpa ⊢
  exact Nat.lt_of_le_of_lt hnt hpa.2

theorem filter_length_eq_windowCount (P now : Nat) (l : List Nat)
    (hle : ∀ a ∈ l, a ≤ now) :
    (l.filter (fun a => decide (now < a + P))).length = windowCount P now l := by
  unfold windowCount
  rw [← List.countP_eq_length_filter]
  have hiff : ∀ a ∈ l, (decide (now < a + P)) = true ↔
      (decide (a ≤ now ∧ now < a + P)) = true := by
    intro a ha
    simp [hle a ha]
  rw [List.countP_congr hiff]

theorem countP_succ_le (p q : Nat → Bool) (l : List Nat)
    (himp : ∀ a ∈ l, q a = true → p a = true)
    (a0 : Nat) (ha0 : a0 ∈ l) (hpa : p a0 = true) (hqa : q a0 = false) :
    l.countP q + 1 ≤ l.countP p := by
  induction l with
  | nil => cases ha0
  | cons b l ih =>
    rw [List.countP_cons, List.countP_cons]
    rcases List.mem_cons.mp ha0 with rfl | hmem
    · have hm : l.countP q ≤ l.countP p := List.countP_mono_left
        (fun a ha h => himp a (List.mem_cons_of_mem _ ha) h)
      rw [hqa, hpa]
      simp
      omega
    · have hih := ih (fun a ha h => himp a (List.mem_cons_of_mem _ ha) h) hmem
      by_cases hqb : q b = true
      · have hpb := himp b (List.mem_cons_self _ _) hqb
        rw [hqb, hpb]
        omega
      · rw [if_neg hqb]
        by_cases hpb : p b = true
        · rw [if_pos hpb]
          omega
        · rw [if_neg hpb]
          omega

theorem wait_if_needed_fields (rl : RateLimiter) (now d : Nat) :
    (rl.wait_if_needed now d).2 =
      ⟨rl.calls, rl.period, (rl.wait_if_needed now d).2.timestamps⟩ := by
  unfold RateLimiter.wait_if_needed
  dsimp only []
  split
  · split
    · rfl
    · split
      · rfl
      · rfl
  · rfl

theorem wait_if_needed_inv (calls period clock now d : Nat)
    (ts acqs : List Nat)
    (hcalls : 0 < calls) (hperiod : 0 < period)
    (hinv : RLInv calls period clock ts acqs) (hnow : clock ≤ now) :
    RLInv calls period
      (RateLimiter.wait_if_needed ⟨calls, period, ts⟩ now d).1
      (RateLimiter.wait_if_needed ⟨calls, period, ts⟩ now d).2.timestamps
      (acqs ++ [(RateLimiter.wait_if_needed ⟨calls, period, ts⟩ now d).1]) ∧
    clock ≤ (RateLimiter.wait_if_needed ⟨calls, period, ts⟩ now d).1 := by
  obtain ⟨hsort, hle, hts, hwin⟩ := hinv
  have hsort_ts : ts.Sorted (· ≤ ·) := by
    rw [hts]; exact hsort.filter _
  have hts1 : ts.dropWhile (fun t => decide (t + period ≤ now)) =
      acqs.filter (fun a => decide (now < a + period)) := by
    rw [dropWhile_sorted_eq_filter period now ts hsort_ts, hts,
      filter_cut_cut period clock now hnow]
  have hlen1 : (acqs.filter (fun a => decide (now < a + period))).length =
      windowCount period now acqs :=
    filter_length_eq_windowCount period now acqs
      (fun a ha => Nat.le_trans (hle a ha) hnow)
  unfold RateLimiter.wait_if_needed
  dsimp only []
  rw [hts1]
  by_cases hfull :
      calls ≤ (acqs.filter (fun a => decide (now < a + period))).length
  · rw [if_pos hfull]
    cases hts1' : acqs.filter (fun a => decide (now < a + period)) with
    | nil =>
      rw [hts1'] at hfull
      exact absurd (Nat.le_trans hcalls hfull) (by simp)
    | cons t0 rest =>
      dsimp only []
      have ht0f : t0 ∈ acqs.filter (fun a => decide (now < a + period)) := by
        rw [hts1']; exact List.mem_cons_self _ _
      have ht0mem : t0 ∈ acqs := (List.mem_filter.mp ht0f).1
      have ht0lt : now < t0 + period := by
        have := (List.mem_filter.mp ht0f).2
        simpa using this
      have hsleep : 0 < t0 + period - now := Nat.sub_pos_of_lt ht0lt
      rw [if_pos hsleep]
      dsimp only []
      set W := now + (t0 + period - now) + d with hWdef
      have hWeq : W = t0 + period + d := by omega
      have hnW : now ≤ W := by omega
      have hsort1 : (t0 :: rest).Sorted (· ≤ ·) := by
        rw [← hts1']; exact hsort.filter _
      have hts2 : (t0 :: rest).dropWhile
          (fun t => decide (t + period ≤ W)) =
          acqs.filter (fun a => decide (W < a + period)) := by
        rw [dropWhile_sorted_eq_filter period W _ hsort1, ← hts1',
          filter_cut_cut period now W hnW]
      rw [hts2]
      have hdrop : (acqs.filter (fun a => decide (W < a + period))).length
          + 1 ≤ (acqs.filter (fun a => decide (now < a + period))).length := by
        rw [← List.countP_eq_length_filter, ← List.countP_eq_length_filter]
        apply countP_succ_le _ _ _ _ t0 ht0mem
        · simpa using ht0lt
        · simp only [decide_eq_false_iff_not]
          omega
        · intro a _ hqa
          simp only [decide_eq_true_eq] at hqa ⊢
          exact Nat.lt_of_le_of_lt hnW hqa
      have hcap : (acqs.filter
          (fun a => decide (now < a + period))).length ≤ calls := by
        rw [hlen1]; exact hwin now
      have hW1 : (acqs.filter (fun a => decide (W < a + period))).length
          + 1 ≤ calls := Nat.le_trans hdrop hcap
      have hleW : ∀ a ∈ acqs, a ≤ W :=
        fun a ha => Nat.le_trans (hle a ha) (Nat.le_trans hnow hnW)
      refine ⟨⟨?_, ?_, ?_, ?_⟩, by omega⟩
      · exact List.pairwise_append.mpr ⟨hsort, List.pairwise_singleton _ _,
          fun a ha b hb => by
            rw [List.mem_singleton] at hb
            exact hb ▸ hleW a ha⟩
      · intro a ha
        rcases List.mem_append.mp ha with h | h
        · exact hleW a h
        · rw [List.mem_singleton] at h
          omega
      · rw [List.filter_append]
        have : [W].filter (fun a => decide (W < a + period)) = [W] := by
          simp
          omega
        rw [this]
      · intro t
        unfold windowCount
        rw [List.countP_append]
        by_cases hWt : W ≤ t ∧ t < W + period
        · have hcnt : List.countP
              (fun a => decide (a ≤ t ∧ t < a + period)) acqs ≤
              (acqs.filter (fun a => decide (W < a + period))).length :=
            windowCount_le_filter period W t acqs hWt.1
          have hone : List.countP
              (fun a => decide (a ≤ t ∧ t < a + period)) [W] ≤ 1 := by
            simp only [List.countP_cons, List.countP_nil]
            split <;> omega
          omega
        · have hzero : List.countP
              (fun a => decide (a ≤ t ∧ t < a + period)) [W] = 0 := by
            simp [List.countP_cons, hWt]
          have := hwin t
          unfold windowCount at this
          omega
  · rw [if_neg hfull]
    dsimp only []
    have hlt : (acqs.filter
        (fun a => decide (now < a + period))).length < calls :=
      Nat.lt_of_not_le hfull
    have hleN : ∀ a ∈ acqs, a ≤ now :=
      fun a ha => Nat.le_trans (hle a ha) hnow
    refine ⟨⟨?_, ?_, ?_, ?_⟩, hnow⟩
    · exact List.pairwise_append.mpr ⟨hsort, List.pairwise_singleton _ _,
        fun a ha b hb => by
          rw [List.mem_singleton] at hb
          exact hb ▸ hleN a ha⟩
    · intro a ha
      rcases List.mem_append.mp ha with h | h
      · exact hleN a h
      · rw [List.mem_singleton] at h
        omega
    · rw [List.filter_append]
      have : [now].filter (fun a => decide (now < a + period)) = [now] := by
        simp
        omega
      rw [this]
    · intro t
      unfold windowCount
      rw [List.countP_append]
      by_cases hNt : now ≤ t ∧ t < now + period
      · have hcnt : List.countP
            (fun a => decide (a ≤ t ∧ t < a + period)) acqs ≤
            (acqs.filter (fun a => decide (now < a + period))).length :=
          windowCount_le_filter period now t acqs hNt.1
        have hone : List.countP
            (fun a => decide (a ≤ t ∧ t < a + period)) [now] ≤ 1 := by
          simp only [List.countP_cons, List.countP_nil]
          split <;> omega
        omega
      · have hzero : List.countP
            (fun a => decide (a ≤ t ∧ t < a + period)) [now] = 0 := by
          simp [List.countP_cons, hNt]
        have := hwin t
        unfold windowCount at this
        omega

theorem runAcquires_inv (calls period : Nat) (hcalls : 0 < calls)
    (hperiod : 0 < period) :
    ∀ (trace : List (Nat × Nat)) (clock : Nat) (ts acqs : List Nat),
      RLInv calls period clock ts acqs →
      RLInv calls period
        (runAcquires ⟨calls, period, ts⟩ clock trace).1
        (runAcquires ⟨calls, period, ts⟩ clock trace).2.1.timestamps
        (acqs ++ (runAcquires ⟨calls, period, ts⟩ clock trace).2.2) := by
  intro trace
  induction trace with
  | nil =>
    intro clock ts acqs hinv
    simpa [runAcquires] using hinv
  | cons gd rest ih =>
    intro clock ts acqs hinv
    obtain ⟨g, dl⟩ := gd
    have hstep := wait_if_needed_inv calls period clock (clock + g) dl ts
      acqs hcalls hperiod hinv (Nat.le_add_right _ _)
    unfold runAcquires
    dsimp only []
    rw [wait_if_needed_fields ⟨calls, period, ts⟩ (clock + g) dl]
    have := ih (RateLimiter.wait_if_needed ⟨calls, period, ts⟩
        (clock + g) dl).1
      (RateLimiter.wait_if_needed ⟨calls, period, ts⟩
        (clock + g) dl).2.timestamps
      (acqs ++ [(RateLimiter.wait_if_needed ⟨calls, period, ts⟩
        (clock + g) dl).1]) hstep.1
    simpa [List.append_assoc] using this

/-- C1: sliding-window invariant — for every sequence of `wait_if_needed`
calls on one `RateLimiter` constructed with `calls = N > 0` and
`period = P > 0` (arbitrary arrival gaps and oversleeps), the recorded
acquisition instants are chronological and no trailing window `(t-P, t]`
ever contains more than `N` of them: a full window makes the call sleep
`period - (now - oldestRemainingTimestamp)`, re-evict after waking, and
only then record its timestamp, which keeps the bound. -/
theorem C1_window_invariant (calls period clock0 t : Nat)
    (trace : List (Nat × Nat)) (hcalls : 0 < calls) (hperiod : 0 < period) :
    windowCount period t
      (runAcquires ⟨calls, period, []⟩ clock0 trace).2.2 ≤ calls ∧
    (runAcquires ⟨calls, period, []⟩ clock0 trace).2.2.Sorted (· ≤ ·) := by
  have h0 : RLInv calls period clock0 [] [] :=
    ⟨List.Pairwise.nil, by simp, rfl,
     fun t => by simp [windowCount]⟩
  have h := runAcquires_inv calls period hcalls hperiod trace clock0 [] [] h0
  rw [List.nil_append] at h
  obtain ⟨hs, _, _, hw⟩ := h
  exact ⟨hw t, hs⟩

/-- C1 (witness): three immediate acquisitions plus a later one on a
2-per-60s limiter keep every window at most 2 acquisitions. -/
theorem C1_window_invariant_witness :
    (0 : Nat) < 2 ∧ (0 : Nat) < 60 ∧
    (windowCount 60 60
        (runAcquires ⟨2, 60, []⟩ 0 [(0, 0), (1, 0), (1, 0), (1, 0)]).2.2 ≤ 2 ∧
      (runAcquires ⟨2, 60, []⟩ 0
        [(0, 0), (1, 0), (1, 0), (1, 0)]).2.2.Sorted (· ≤ ·)) :=
  ⟨by decide, by decide,
   C1_window_invariant 2 60 0 60 [(0, 0), (1, 0), (1, 0), (1, 0)]
     (by decide) (by decide)⟩

end ContentScraper
